import Mathlib

/-!
Verification development for the o-tracking event-delivery pipeline.

The first part embeds the JavaScript values and the pure functions of
`src/javascript/utils.js` (`merge`, `is`), the producer-boundary `event`
function of `src/javascript/events/custom.js`, and the `Tracking.init` /
`Tracking._getDeclarativeConfig` logic of the main module.

The second part models the durable send queue and the transport chain
(`core/queue.js`, `core/send.js`), whose sources are not part of this
repository snapshot; those definitions are modelled from the spec and say
so in their doc comments.
-/

namespace OTracking

mutual
/-- A JavaScript value, as far as the embedded functions need to
distinguish them: `undefined`, `null`, booleans, numbers, strings, plain
objects (ordered own enumerable properties) and functions. -/
inductive JSValue where
  | undef
  | null
  | bool (b : Bool)
  | num (n : Int)
  | str (s : String)
  | obj (fields : JSFields)
  | func

/-- The ordered own enumerable properties of a JS object: a key/value
sequence. JS objects cannot hold two properties with the same key, so a
well-formed value has pairwise distinct keys; theorems that depend on
this state it as a hypothesis. -/
inductive JSFields where
  | nil
  | cons (k : String) (v : JSValue) (rest : JSFields)
end
deriving instance DecidableEq for JSValue
deriving instance DecidableEq for JSFields

/-- View of a field sequence as a Lean list, used to state theorems with
the standard `List` membership and `Nodup` vocabulary. -/
def JSFields.toList : JSFields → List (String × JSValue)
  | .nil => []
  | .cons k v rest => (k, v) :: rest.toList

/-- Property read `o[k]` on an object's fields: the first binding of the
key, or `undefined` when the key is absent. -/
def lookupVal : JSFields → String → JSValue
  | .nil, _ => .undef
  | .cons k v rest, n => if k = n then v else lookupVal rest n

/-- Property write `o[k] = v`: an existing key keeps its position in the
enumeration order, a new key is appended at the end. -/
def setKey : JSFields → String → JSValue → JSFields
  | .nil, n, v => .cons n v .nil
  | .cons k w rest, n, v =>
      if k = n then .cons n v rest else .cons k w (setKey rest n v)

/-- Property removal `delete o[k]`. -/
def delKey : JSFields → String → JSFields
  | .nil, _ => .nil
  | .cons k w rest, n =>
      if k = n then delKey rest n else .cons k w (delKey rest n)

/-- The index keys a `for (p in s)` loop yields over a string primitive:
`"0"`, `"1"`, ... each bound to the one-character string at that index. -/
def strKeys : List Char → Nat → JSFields
  | [], _ => .nil
  | c :: rest, i => .cons (toString i) (JSValue.str (String.mk [c])) (strKeys rest (i + 1))

/-- The key/value pairs a `for (p in x)` loop enumerates: an object's own
properties, a string's indexed characters, nothing for the remaining
primitives (`for-in` over `null`/`undefined`/numbers/booleans iterates
zero times, and the model gives functions no enumerable properties). -/
def keysOf : JSValue → JSFields
  | .obj fs => fs
  | .str s => strKeys s.data 0
  | _ => .nil

/-- JavaScript truthiness of a modelled value. -/
def truthy : JSValue → Bool
  | .undef => false
  | .null => false
  | .bool b => b
  | .num n => n != 0
  | .str s => s != ""
  | .obj _ => true
  | .func => true

/-- The short-circuiting `a || b` of JavaScript on modelled values. -/
def jsOr (a b : JSValue) : JSValue :=
  if truthy a then a else b

/-- Structural induction over a field sequence alone (the mutual
recursor of `JSValue`/`JSFields` is not usable by the `induction`
tactic directly). -/
@[induction_eliminator]
theorem JSFields.inductionOn {motive : JSFields → Prop} (h1 : motive .nil)
    (h2 : ∀ k v rest, motive rest → motive (.cons k v rest)) :
    ∀ fs, motive fs
  | .nil => h1
  | .cons k v rest => h2 k v rest (JSFields.inductionOn h1 h2 rest)

theorem lookupVal_setKey_self (fs : JSFields) (n : String) (v : JSValue) :
    lookupVal (setKey fs n v) n = v := by
  induction fs with
  | h1 => simp [setKey, lookupVal]
  | h2 k w tl ih =>
      by_cases h : k = n
      · simp [setKey, lookupVal, h]
      · simp [setKey, lookupVal, h, ih]

theorem lookupVal_setKey_ne (fs : JSFields) (n m : String) (v : JSValue)
    (h : n ≠ m) : lookupVal (setKey fs n v) m = lookupVal fs m := by
  induction fs with
  | h1 => simp [setKey, lookupVal, h]
  | h2 k w tl ih =>
      by_cases hk : k = n
      · subst hk
        simp [setKey, lookupVal, h]
      · simp [setKey, lookupVal, hk, ih]

theorem sizeOf_lookupVal_le (fs : JSFields) (n : String) :
    sizeOf (lookupVal fs n) ≤ sizeOf fs := by
  induction fs with
  | h1 => simp [lookupVal]
  | h2 k v tl ih =>
      simp only [lookupVal]
      split
      · simp only [JSFields.cons.sizeOf_spec]
        omega
      · simp only [JSFields.cons.sizeOf_spec]
        omega

theorem sizeOf_lookupVal_obj (fs : JSFields) (n : String)
    (sfs : JSFields) (h : lookupVal fs n = .obj sfs) :
    sizeOf sfs < sizeOf fs := by
  have h1 : sizeOf (JSValue.obj sfs) ≤ sizeOf fs := h ▸ sizeOf_lookupVal_le fs n
  have h2 : sizeOf sfs < sizeOf (JSValue.obj sfs) := by
    simp [JSValue.obj.sizeOf_spec]
  omega

/-- Embedding of the loop of `utils.merge` (src/javascript/utils.js):

    for (name in options) {
      src = target[name]; copy = options[name];
      if (target === copy) { continue; }
      if (typeof copy !== 'undefined' && copy !== null && copy !== '') {
        target[name] = (src === Object(src) && !is(src, 'function')
                          ? merge(src, copy) : copy);
      }
    }

`mergeGo t es acc` runs the loop with `t` the target as first entered,
`es` the key/value pairs of `options` still to visit, and `acc` the
target with the updates made so far. A `for-in` loop visits each
distinct key of `options` once, and an iteration only writes its own
key, so the `target[name]` read of an iteration sees the original
binding for that key; the model therefore reads `src` from `t`. The
`target === copy` identity test is modelled as structural equality
against the current target contents. -/
def mergeGo : JSFields → JSFields → JSFields → JSFields
  | _, .nil, acc => acc
  | t, .cons name copy rest, acc =>
      let acc' :=
        if copy = JSValue.obj acc then acc
        else if copy ≠ JSValue.undef ∧ copy ≠ JSValue.null ∧ copy ≠ JSValue.str "" then
          setKey acc name
            (match h : lookupVal t name with
             | JSValue.obj sfs => JSValue.obj (mergeGo sfs (keysOf copy) sfs)
             | _ => copy)
        else acc
      mergeGo t rest acc'
termination_by t es _ => (sizeOf t, sizeOf es)
decreasing_by
  · exact Prod.Lex.left _ _ (sizeOf_lookupVal_obj t name sfs h)
  · apply Prod.Lex.right
    simp only [JSFields.cons.sizeOf_spec]
    omega

/-- Embedding of `utils.merge(target, options)` for an object `target`
and a supplied `options` argument. The source's `if (!options)` swap
branch is unreachable here because the claims call `merge` with a
(truthy) object as `options`. -/
def merge (target : JSFields) (options : JSValue) : JSFields :=
  mergeGo target (keysOf options) target

theorem mergeGo_lookup_of_not_mem : ∀ (t es : JSFields) (k : String),
    (∀ p ∈ es.toList, p.1 ≠ k) →
    ∀ acc, lookupVal (mergeGo t es acc) k = lookupVal acc k
  | t, .nil, k, _, acc => by
      simp only [mergeGo]
  | t, .cons name copy rest, k, hk, acc => by
      have hname : name ≠ k := hk (name, copy) (by simp [JSFields.toList])
      have hrest : ∀ p ∈ rest.toList, p.1 ≠ k := fun p hp =>
        hk p (by simp [JSFields.toList, hp])
      simp only [mergeGo]
      rw [mergeGo_lookup_of_not_mem t rest k hrest]
      split
      · rfl
      · split
        · rw [lookupVal_setKey_ne _ _ _ _ hname]
        · rfl

theorem mergeGo_lookup_skip : ∀ (t es : JSFields) (k : String) (v : JSValue),
    (es.toList.map Prod.fst).Nodup → (k, v) ∈ es.toList →
    (v = JSValue.undef ∨ v = JSValue.null ∨ v = JSValue.str "") →
    ∀ acc, lookupVal (mergeGo t es acc) k = lookupVal acc k
  | t, .nil, k, v, _, hmem, _, acc => by
      simp [JSFields.toList] at hmem
  | t, .cons name copy rest, k, v, hnd, hmem, hskip, acc => by
      simp only [JSFields.toList, List.map_cons, List.nodup_cons] at hnd
      rcases List.mem_cons.mp hmem with hhd | htl
      · have hkeq : name = k := (congrArg Prod.fst hhd).symm
        have hveq : copy = v := (congrArg Prod.snd hhd).symm
        subst hkeq
        subst hveq
        have hrest : ∀ p ∈ rest.toList, p.1 ≠ name := fun p hp hpk =>
          hnd.1 (hpk ▸ List.mem_map_of_mem Prod.fst hp)
        simp only [mergeGo]
        rw [mergeGo_lookup_of_not_mem t rest name hrest]
        rw [if_neg (by rcases hskip with h | h | h <;> rw [h] <;> intro hc <;> cases hc)]
        rw [if_neg (by rcases hskip with h | h | h <;> simp [h])]
      · have hname : name ≠ k := fun hnk =>
          hnd.1 (hnk ▸ List.mem_map_of_mem Prod.fst htl)
        simp only [mergeGo]
        rw [mergeGo_lookup_skip t rest k v hnd.2 htl hskip]
        split
        · rfl
        · split
          · rw [lookupVal_setKey_ne _ _ _ _ hname]
          · rfl

theorem mergeGo_lookup_assign : ∀ (t es : JSFields) (k : String) (v : JSValue),
    (es.toList.map Prod.fst).Nodup → (k, v) ∈ es.toList →
    ¬(v = JSValue.undef ∨ v = JSValue.null ∨ v = JSValue.str "") →
    (∀ fs, v ≠ JSValue.obj fs) →
    (∀ fs, lookupVal t k ≠ JSValue.obj fs) →
    ∀ acc, lookupVal (mergeGo t es acc) k = v
  | t, .nil, k, v, _, hmem, _, _, _, acc => by
      simp [JSFields.toList] at hmem
  | t, .cons name copy rest, k, v, hnd, hmem, hskip, hvobj, hsrc, acc => by
      simp only [JSFields.toList, List.map_cons, List.nodup_cons] at hnd
      rcases List.mem_cons.mp hmem with hhd | htl
      · have hkeq : name = k := (congrArg Prod.fst hhd).symm
        have hveq : copy = v := (congrArg Prod.snd hhd).symm
        subst hkeq
        subst hveq
        have hrest : ∀ p ∈ rest.toList, p.1 ≠ name := fun p hp hpk =>
          hnd.1 (hpk ▸ List.mem_map_of_mem Prod.fst hp)
        simp only [mergeGo]
        rw [mergeGo_lookup_of_not_mem t rest name hrest]
        rw [if_neg (fun hc => hvobj acc hc)]
        rw [if_pos (by push_neg at hskip; exact hskip)]
        exact lookupVal_setKey_self acc name copy
      · have hname : name ≠ k := fun hnk =>
          hnd.1 (hnk ▸ List.mem_map_of_mem Prod.fst htl)
        simp only [mergeGo]
        rw [mergeGo_lookup_assign t rest k v hnd.2 htl hskip hvobj hsrc]

/-- Claim C10 (amended): for objects `target` and `options` (a JS object's
keys are pairwise distinct), `merge target options` (i) skips every key
whose value in `options` is `undefined`, `null` or the empty string — the
target's existing value for that key is left unchanged, so merging a
config with a null/undefined field cannot unset a previously set field —
and (ii) every key of `options` carrying a non-object, non-skipped value
appears in the result with exactly that value, provided the target's
existing value at that key is not a non-function object (when it is such
an object, the source deep-merges into it instead of replacing it, see
`merge_nested_object_counterexample`). -/
theorem merge_amended (t os : JSFields)
    (hnd : (os.toList.map Prod.fst).Nodup) :
    (∀ k v, (k, v) ∈ os.toList →
        (v = JSValue.undef ∨ v = JSValue.null ∨ v = JSValue.str "") →
        lookupVal (merge t (JSValue.obj os)) k = lookupVal t k) ∧
    (∀ k v, (k, v) ∈ os.toList →
        ¬(v = JSValue.undef ∨ v = JSValue.null ∨ v = JSValue.str "") →
        (∀ fs, v ≠ JSValue.obj fs) →
        (∀ fs, lookupVal t k ≠ JSValue.obj fs) →
        lookupVal (merge t (JSValue.obj os)) k = v) := by
  constructor
  · intro k v hmem hskip
    exact mergeGo_lookup_skip t os k v hnd hmem hskip t
  · intro k v hmem hskip hvobj hsrc
    exact mergeGo_lookup_assign t os k v hnd hmem hskip hvobj hsrc t

/-- Claim C10, counterexample to the claim as stated: with
`target = {k: {}}` and `options = {k: 5}` the existing target value at `k`
is an object, so the source computes `merge({}, 5)` (a `for-in` over the
number 5 iterates zero times) and the result keeps `{}` at `k` instead of
the claimed value `5`. -/
theorem merge_nested_object_counterexample :
    lookupVal (merge (.cons "k" (JSValue.obj .nil) .nil)
        (JSValue.obj (.cons "k" (JSValue.num 5) .nil))) "k" ≠ JSValue.num 5 := by
  simp [merge, mergeGo, keysOf, lookupVal, setKey]

/-- Witness for `merge_amended` at a concrete input: with `target = {a: 1}`
and `options = {a: null, b: 2}` the merge keeps `a = 1` and copies
`b = 2`. -/
theorem merge_amended_witness :
    lookupVal (merge (.cons "a" (JSValue.num 1) .nil)
        (JSValue.obj (.cons "a" JSValue.null (.cons "b" (JSValue.num 2) .nil)))) "a"
      = JSValue.num 1 ∧
    lookupVal (merge (.cons "a" (JSValue.num 1) .nil)
        (JSValue.obj (.cons "a" JSValue.null (.cons "b" (JSValue.num 2) .nil)))) "b"
      = JSValue.num 2 := by
  have h := merge_amended (.cons "a" (JSValue.num 1) .nil)
      (.cons "a" JSValue.null (.cons "b" (JSValue.num 2) .nil))
      (by decide)
  constructor
  · rw [h.1 "a" JSValue.null (by decide) (Or.inr (Or.inl rfl))]
    decide
  · rw [h.2 "b" (JSValue.num 2) (by decide) (by decide)
      (fun fs hc => JSValue.noConfusion hc)
      (fun fs hc => JSValue.noConfusion (show JSValue.undef = JSValue.obj fs from hc))]

/-- Embedding of `utils.is(variable)` from src/javascript/utils.js with the
`type` argument omitted: tests `typeof variable === 'undefined'`. -/
def is (x : JSValue) : Bool := decide (x = JSValue.undef)

/-- Embedding of `defaultEventConfig()` from
src/javascript/events/custom.js: `{tag: {type: 'event'}, data: {}}`. -/
def defaultEventConfig : JSFields :=
  .cons "tag" (JSValue.obj (.cons "type" (JSValue.str "event") .nil))
    (.cons "data" (JSValue.obj .nil) .nil)

/-- Embedding of the config construction of `event(obj)` from
src/javascript/events/custom.js: merge `{data: obj}` over the default
event config, then, when `config.data.id` is defined, hoist it to
`config.id` and delete it from `config.data`. -/
def eventConfig (obj : JSFields) : JSFields :=
  let config := merge defaultEventConfig (JSValue.obj (.cons "data" (JSValue.obj obj) .nil))
  match lookupVal config "data" with
  | JSValue.obj dataFields =>
      if is (lookupVal dataFields "id") = false then
        setKey (setKey config "id" (lookupVal dataFields "id")) "data"
          (JSValue.obj (delKey dataFields "id"))
      else config
  | _ => config

/-- Embedding of `event(obj)` from src/javascript/events/custom.js: throws
`'Missing category or action values'` when `obj.category` or `obj.action`
is undefined; otherwise builds the config and hands it to `Core.track`.
The external `Core.track` call is represented by returning the config it
would receive: an `Except.error` result is a synchronous throw to the
caller, and only an `Except.ok` config reaches the queue. -/
def event (obj : JSFields) : Except String JSFields :=
  if is (lookupVal obj "category") || is (lookupVal obj "action") then
    Except.error "Missing category or action values"
  else
    Except.ok (eventConfig obj)

/-- Claim C5: the producer-boundary `event` operation raises its
synchronous error exactly when the `category` field or the `action` field
of the supplied object is absent (undefined) — and then nothing is queued,
since no config is produced; with both fields present no such error is
raised and a config is handed on to `Core.track`. -/
theorem event_required_fields (obj : JSFields) :
    (∃ e, event obj = Except.error e) ↔
      (lookupVal obj "category" = JSValue.undef ∨
        lookupVal obj "action" = JSValue.undef) := by
  unfold event
  by_cases h : (is (lookupVal obj "category") || is (lookupVal obj "action")) = true
  · rw [if_pos h]
    simp only [is, Bool.or_eq_true, decide_eq_true_eq] at h
    exact ⟨fun _ => h, fun _ => ⟨_, rfl⟩⟩
  · rw [if_neg h]
    simp only [is, Bool.or_eq_true, decide_eq_true_eq] at h
    constructor
    · rintro ⟨e, he⟩
      exact Except.noConfusion he
    · intro hor
      exact absurd hor h

/-- Observable effects of the embedded `Tracking` methods, in the order the
source performs them. -/
inductive InitEffect where
  | settingsSet (key : String)
  | broadcastOErrors
  | userInit
  | updateConfig
  | sessionInit
  | sendInit
  | eventInit
  | pageInit
deriving DecidableEq, Repr

/-- Embedding of the success-path loop of `Tracking._getDeclarativeConfig`:

    for (const property in declarativeOptions) {
      if (hasOwnProperty.call(declarativeOptions, property)) {
        options[property] = options[property] || declarativeOptions[property];
      }
    }

The first argument is the remaining declarative entries (`hasOwnProperty`
holds for every own key a `for-in` visits). -/
def declAssignLoop : JSFields → JSFields → JSFields
  | .nil, options => options
  | .cons property v rest, options =>
      declAssignLoop rest (setKey options property (jsOr (lookupVal options property) v))

/-- Embedding of `Tracking._getDeclarativeConfig(options)` given the outcome
of `JSON.parse` on the declarative `<script>` element's text content
(`none` models a parse failure; `JSON.parse` itself is a host primitive).
On failure the method broadcasts the error on the `oErrors` channel and
throws; on success it fills each property of `options` that is falsy from
the parsed declarative options. -/
def getDeclarativeConfig (parsed : Option JSValue) (options : JSFields) :
    List InitEffect × Except String JSFields :=
  match parsed with
  | none =>
      ([InitEffect.broadcastOErrors],
       Except.error "Invalid JSON configuration syntax, check validity for o-tracking configuration")
  | some declarativeOptions =>
      ([], Except.ok (declAssignLoop (keysOf declarativeOptions) options))

theorem declAssignLoop_truthy : ∀ (es options : JSFields) (k : String),
    truthy (lookupVal options k) = true →
    lookupVal (declAssignLoop es options) k = lookupVal options k
  | .nil, options, k, _ => rfl
  | .cons property v rest, options, k, h => by
      by_cases hp : property = k
      · subst hp
        simp only [declAssignLoop]
        have hor : jsOr (lookupVal options property) v = lookupVal options property := by
          simp [jsOr, h]
        rw [hor]
        rw [declAssignLoop_truthy rest _ property
          (by rw [lookupVal_setKey_self]; exact h)]
        exact lookupVal_setKey_self options property _
      · simp only [declAssignLoop]
        rw [declAssignLoop_truthy rest _ k
          (by rw [lookupVal_setKey_ne _ _ _ _ hp]; exact h)]
        exact lookupVal_setKey_ne _ _ _ _ hp

/-- Claim C6, counterexample to the claim as stated: with caller options
`{k: false}` and the valid declarative JSON `{k: true}`, the source's
`options[property] = options[property] || declarativeOptions[property]`
overwrites the caller-supplied `false` (falsy) with the declarative
`true`, so the parsed options are not merged "without overwriting options
already supplied by the caller". -/
theorem getDeclarativeConfig_counterexample :
    (getDeclarativeConfig (some (JSValue.obj (.cons "k" (JSValue.bool true) .nil)))
        (.cons "k" (JSValue.bool false) .nil)).2
      = Except.ok (.cons "k" (JSValue.bool true) .nil) ∧
    lookupVal (.cons "k" (JSValue.bool true) .nil) "k" ≠ JSValue.bool false := by
  constructor
  · rfl
  · decide

/-- Claim C6 (amended): a declarative configuration string that is not
valid JSON makes initialisation broadcast the error on the `oErrors`
channel and raise a thrown error to the caller; a valid JSON configuration
throws nothing and the parsed options are merged without overwriting
caller options holding a truthy value (caller options holding a falsy
value — `false`, `0`, `null`, the empty string, `undefined` — are replaced
by the declarative value, see `getDeclarativeConfig_counterexample`). -/
theorem getDeclarativeConfig_amended (parsed : Option JSValue) (options : JSFields) :
    (parsed = none →
        getDeclarativeConfig parsed options =
          ([InitEffect.broadcastOErrors],
           Except.error "Invalid JSON configuration syntax, check validity for o-tracking configuration")) ∧
    (∀ j, parsed = some j →
        ∃ res, getDeclarativeConfig parsed options = ([], Except.ok res) ∧
          ∀ k, truthy (lookupVal options k) = true →
            lookupVal res k = lookupVal options k) := by
  constructor
  · intro h
    subst h
    rfl
  · intro j h
    subst h
    exact ⟨_, rfl, fun k hk => declAssignLoop_truthy (keysOf j) options k hk⟩

/-- Witness for `getDeclarativeConfig_amended` at a concrete input: a valid
declarative `{k: "decl"}` does not overwrite the caller's truthy
`{k: "caller"}`. -/
theorem getDeclarativeConfig_amended_witness :
    ∃ res, getDeclarativeConfig (some (JSValue.obj (.cons "k" (JSValue.str "decl") .nil)))
        (.cons "k" (JSValue.str "caller") .nil) = ([], Except.ok res) ∧
      lookupVal res "k" = JSValue.str "caller" := by
  obtain ⟨res, heq, hpres⟩ :=
    (getDeclarativeConfig_amended
        (some (JSValue.obj (.cons "k" (JSValue.str "decl") .nil)))
        (.cons "k" (JSValue.str "caller") .nil)).2 _ rfl
  refine ⟨res, heq, ?_⟩
  rw [hpres "k" (by decide)]
  decide

/-- Result of a `Tracking.init` call: the tracking object itself (`this`),
the `null` early return, or a thrown configuration error. -/
inductive InitOutcome where
  | self
  | nullResult
  | thrown
deriving DecidableEq, Repr

/-- The setup tail of `Tracking.init` in source order: the three settings
writes, `user.init`, `this.updateConfig`, `session.init`, `send.init` (the
sending queue), `this.event.init` and `this.page.init` (listener
registration). -/
def initSetupEffects : List InitEffect :=
  [.settingsSet "version", .settingsSet "source", .settingsSet "page_sent",
   .userInit, .updateConfig, .sessionInit, .sendInit, .eventInit, .pageInit]

/-- The tail of `Tracking.init` once the effective config is known, entered
with the initialised flag still false: the empty-config early `null`
return (`Object.keys(config).length === 0`), or the full setup ending in
`this.initialised = true` and returning `this`. -/
def initFrom (config : JSFields) : InitOutcome × Bool × List InitEffect :=
  if config = JSFields.nil then (.nullResult, false, [])
  else (.self, true, initSetupEffects)

/-- Embedding of `Tracking.init(config)`. The state is the `initialised`
flag. `decl` describes the declarative
`<script data-o-tracking-config>` element: `none` when no such element is
in the DOM, `some parsed` when it exists with the `JSON.parse` outcome of
its text. The result is the call's return value, the new `initialised`
flag, and the effects performed. -/
def trackingInit (initialised : Bool) (config : JSFields)
    (decl : Option (Option JSValue)) : InitOutcome × Bool × List InitEffect :=
  if initialised then (.self, initialised, [])
  else
    match decl with
    | some parsed =>
        match getDeclarativeConfig parsed config with
        | (effs, .error _) => (.thrown, initialised, effs)
        | (_, .ok declConfig) => initFrom declConfig
    | none => initFrom config

/-- Claim C7: `init` is idempotent — after a first call that succeeded
(returned the Tracking object and set the initialised flag), a second call
with any configuration returns the same Tracking object again, leaves the
flag set, and performs no further setup work: no settings writes, no queue
initialisation, no listener registration, no sends — so queued records are
not duplicated and pending ones are not double-sent. -/
theorem trackingInit_idempotent (b : Bool) (c : JSFields)
    (d : Option (Option JSValue)) (c' : JSFields) (d' : Option (Option JSValue))
    (h : (trackingInit b c d).1 = InitOutcome.self) :
    trackingInit (trackingInit b c d).2.1 c' d' =
      (InitOutcome.self, (trackingInit b c d).2.1, []) := by
  have hflag : (trackingInit b c d).2.1 = true := by
    cases b with
    | true => rfl
    | false =>
        cases d with
        | none =>
            by_cases hc : c = JSFields.nil
            · simp [trackingInit, initFrom, hc] at h
            · simp [trackingInit, initFrom, hc]
        | some parsed =>
            cases parsed with
            | none => simp [trackingInit, getDeclarativeConfig] at h
            | some j =>
                by_cases hc : declAssignLoop (keysOf j) c = JSFields.nil
                · simp [trackingInit, getDeclarativeConfig, initFrom, hc] at h
                · simp [trackingInit, getDeclarativeConfig, initFrom, hc]
  rw [hflag]
  rfl

/-- Witness for `trackingInit_idempotent` at a concrete input: a successful
first call with config `{k: true}` and no declarative element, then a
second call. -/
theorem trackingInit_idempotent_witness :
    trackingInit (trackingInit false (.cons "k" (JSValue.bool true) .nil) none).2.1
        JSFields.nil none =
      (InitOutcome.self,
        (trackingInit false (.cons "k" (JSValue.bool true) .nil) none).2.1, []) :=
  trackingInit_idempotent false (.cons "k" (JSValue.bool true) .nil) none
    JSFields.nil none (by decide)

/-- Claim C9: `init` on an uninitialised tracker with an empty
configuration object and no declarative configuration element in the DOM
returns `null`, leaves the initialised flag false, and performs no setup —
no settings writes, no queue initialisation, no listener registration. -/
theorem trackingInit_empty_config :
    trackingInit false JSFields.nil none = (InitOutcome.nullResult, false, []) := by
  decide

/-- Modelled from the spec: the request record of §3 — the sources of
`core/queue.js` and `core/send.js` are not part of this repository
snapshot, only their tests are. `id` is the producer-supplied unique
string, `payload` the serialized opaque event data, `queueTime` the
first-failure timestamp (absent while pending or after first-attempt
success), `async` the advisory flag. -/
structure TrackRequest where
  id : String
  payload : String
  queueTime : Option Nat
  async : Bool
deriving DecidableEq, Repr

/-- Modelled from the spec: the Store state is its ordered record list
(`all()` is that list). `add` appends to the tail, and on a duplicate `id`
must not create a second entry (§3 invariant, replace-or-merge the
existing one): modelled as replace — the stale entry is dropped and the
fresh record appended. -/
def addRequest (q : List TrackRequest) (r : TrackRequest) : List TrackRequest :=
  q.filter (fun x => x.id != r.id) ++ [r]

/-- Modelled from the spec: `Store.remove(id)` deletes the record with that
id if present; idempotent (no error if absent). -/
def removeRequest (q : List TrackRequest) (idv : String) : List TrackRequest :=
  q.filter (fun x => x.id != idv)

/-- Modelled from the spec: `Store.markFailed(id, timestamp)` sets
`queueTime` on the record only if not already set (the first-failure
timestamp is retained, not overwritten). -/
def markFailed (q : List TrackRequest) (idv : String) (ts : Nat) : List TrackRequest :=
  q.map (fun r =>
    if r.id = idv then
      if r.queueTime = none then { r with queueTime := some ts } else r
    else r)

/-- Modelled from the spec: `Store.last()` — the most recently appended
record, or none when the Store is empty. -/
def lastRequest (q : List TrackRequest) : Option TrackRequest := q.getLast?

/-- Records in a Store state are unique by `id` (§3 invariant). -/
def uniqueIds (q : List TrackRequest) : Prop := (q.map TrackRequest.id).Nodup

instance (q : List TrackRequest) : Decidable (uniqueIds q) :=
  inferInstanceAs (Decidable ((q.map TrackRequest.id).Nodup))

/-- Claim C1: for a record whose delivery fails, `markFailed` stamps
`queueTime` only when it is not already set — after a first failure at
`t1` the record is present in `all()` carrying `queueTime = t1`, and a
second failure at `t2` changes nothing at all (the first-failure timestamp
is retained). -/
theorem markFailed_first_failure (q : List TrackRequest) (idv : String) (t1 t2 : Nat) :
    (∀ r ∈ q, r.id = idv → r.queueTime = none →
        { r with queueTime := some t1 } ∈ markFailed q idv t1) ∧
    markFailed (markFailed q idv t1) idv t2 = markFailed q idv t1 := by
  constructor
  · intro r hr hid hqt
    have heq :
        (if r.id = idv then
            (if r.queueTime = none then { r with queueTime := some t1 } else r)
          else r) = { r with queueTime := some t1 } := by
      rw [if_pos hid, if_pos hqt]
    exact heq ▸ List.mem_map_of_mem _ hr
  · simp only [markFailed, List.map_map]
    congr 1
    funext r
    by_cases h1 : r.id = idv
    · by_cases h2 : r.queueTime = none
      · simp [Function.comp, h1, h2]
      · simp [Function.comp, h1, h2]
    · simp [Function.comp, h1]

/-- Witness for `markFailed_first_failure` at a concrete input: one pending
record, failed at time 7 and again at time 9. -/
theorem markFailed_first_failure_witness :
    ({ id := "r1", payload := "p", queueTime := some 7, async := true } : TrackRequest) ∈
      markFailed [{ id := "r1", payload := "p", queueTime := none, async := true }] "r1" 7 ∧
    markFailed
        (markFailed [({ id := "r1", payload := "p", queueTime := none, async := true } : TrackRequest)] "r1" 7)
        "r1" 9 =
      markFailed [({ id := "r1", payload := "p", queueTime := none, async := true } : TrackRequest)] "r1" 7 := by
  have h := markFailed_first_failure
    [({ id := "r1", payload := "p", queueTime := none, async := true } : TrackRequest)] "r1" 7 9
  exact ⟨h.1 _ (List.mem_singleton.mpr rfl) rfl rfl, h.2⟩

/-- Claim C8: Store uniqueness by `id` — `add` preserves the invariant that
records are unique by `id`, and `add` followed immediately by `all()`
yields a sequence containing exactly one record with the added record's
id, also when a record with that id was already present. -/
theorem addRequest_unique (q : List TrackRequest) (r : TrackRequest)
    (h : uniqueIds q) :
    uniqueIds (addRequest q r) ∧
      ((addRequest q r).filter (fun x => x.id == r.id)).length = 1 := by
  constructor
  · unfold uniqueIds addRequest
    rw [List.map_append]
    apply List.Nodup.append
    · exact List.Nodup.sublist (List.Sublist.map _ (List.filter_sublist q)) h
    · exact List.nodup_singleton r.id
    · intro a ha hb
      simp only [List.map_cons, List.map_nil, List.mem_singleton] at hb
      subst hb
      obtain ⟨x, hx, hxa⟩ := List.mem_map.mp ha
      have := (List.mem_filter.mp hx).2
      rw [hxa] at this
      simp at this
  · unfold addRequest
    rw [List.filter_append]
    have hnil : (q.filter (fun x => x.id != r.id)).filter (fun x => x.id == r.id) = [] := by
      apply List.filter_eq_nil_iff.mpr
      intro x hx
      have := (List.mem_filter.mp hx).2
      simp at this
      simp [this]
    rw [hnil]
    simp

/-- Witness for `addRequest_unique` at a concrete input: adding a record
whose id already sits in the Store. -/
theorem addRequest_unique_witness :
    uniqueIds (addRequest
        [({ id := "r1", payload := "p", queueTime := none, async := true } : TrackRequest)]
        { id := "r1", payload := "q", queueTime := none, async := false }) ∧
      ((addRequest
          [({ id := "r1", payload := "p", queueTime := none, async := true } : TrackRequest)]
          { id := "r1", payload := "q", queueTime := none, async := false }).filter
        (fun x => x.id == "r1")).length = 1 :=
  addRequest_unique
    [({ id := "r1", payload := "p", queueTime := none, async := true } : TrackRequest)]
    { id := "r1", payload := "q", queueTime := none, async := false } (by decide)

/-- Modelled from the spec: the environment the transport chain inspects —
configuration opt-in for the beacon (`useSendBeacon`), availability of the
beacon primitive, whether an XHR-capable object can be constructed, and
whether the constructed object supports the credentialed mode
(`withCredentials`). -/
structure TransportEnv where
  useSendBeacon : Bool
  beaconAvailable : Bool
  xhrConstructible : Bool
  xhrWithCredentials : Bool
deriving DecidableEq, Repr

/-- The three delivery strategies of §4.2. -/
inductive Transport where
  | beacon
  | xhr
  | image
deriving DecidableEq, Repr

/-- Modelled from the spec: §4.2 selection policy, evaluated once per
delivery attempt — beacon only when configuration opts in and the
primitive exists; otherwise XHR when an XHR-capable credential-supporting
object can be constructed; otherwise the image pixel. -/
def chooseTransport (env : TransportEnv) : Transport :=
  if env.useSendBeacon && env.beaconAvailable then .beacon
  else if env.xhrConstructible && env.xhrWithCredentials then .xhr
  else .image

/-- Claim C2: with `useSendBeacon = false` (or the beacon unavailable) and
an XHR-capable object constructible with credential support, the XHR
transport is attempted and the image transport is never invoked; and in
any environment the image transport is attempted only when XHR
construction fails or the constructed object lacks credential support. -/
theorem chooseTransport_xhr_priority (env : TransportEnv)
    (h1 : env.useSendBeacon = false ∨ env.beaconAvailable = false)
    (h2 : env.xhrConstructible = true) (h3 : env.xhrWithCredentials = true) :
    chooseTransport env = Transport.xhr ∧
      ∀ env' : TransportEnv, chooseTransport env' = Transport.image →
        env'.xhrConstructible = false ∨ env'.xhrWithCredentials = false := by
  constructor
  · have hA : (env.useSendBeacon && env.beaconAvailable) = false := by
      rcases h1 with h | h <;> simp [h]
    simp [chooseTransport, hA, h2, h3]
  · intro env' himg
    by_contra hcon
    push_neg at hcon
    simp only [Bool.not_eq_false] at hcon
    cases hA : (env'.useSendBeacon && env'.beaconAvailable) <;>
      simp [chooseTransport, hA, hcon.1, hcon.2] at himg

/-- Witness for `chooseTransport_xhr_priority` at a concrete environment:
beacon opt-out, XHR constructible with credential support. -/
theorem chooseTransport_xhr_priority_witness :
    chooseTransport ⟨false, true, true, true⟩ = Transport.xhr :=
  (chooseTransport_xhr_priority ⟨false, true, true, true⟩ (Or.inl rfl) rfl rfl).1

/-- Modelled from the spec: the configuration surface the sender consumes
(§6) — the endpoint URL and the optional method. -/
structure SendConfig where
  endpoint : String
  method : Option String
deriving DecidableEq, Repr

/-- Modelled from the spec: the observable shape of one XHR delivery
attempt — the `open` arguments, the credential flag, the headers set, the
request body, and the number of `send` calls. -/
structure XHRCall where
  openMethod : String
  openUrl : String
  openAsync : Bool
  withCredentials : Bool
  headers : List (String × String)
  body : String
  sendCalls : Nat
deriving DecidableEq, Repr

/-- Modelled from the spec: the §4.2 XHR transport — opens the configured
method (default POST) against the configured endpoint asynchronously, sets
`withCredentials = true`, sets the `Content-type: application/json`
header, and calls `send` once with the serialized payload. -/
def xhrAttempt (cfg : SendConfig) (payload : String) : XHRCall :=
  { openMethod := cfg.method.getD "POST"
    openUrl := cfg.endpoint
    openAsync := true
    withCredentials := true
    headers := [("Content-type", "application/json")]
    body := payload
    sendCalls := 1 }

/-- Claim C3: every record delivered via the XHR transport is opened with
the configured method (default POST when none is configured) against the
configured endpoint URL, with `withCredentials = true` and the header
`Content-type: application/json`, the serialized payload as body, and
`send` called exactly once per attempt. -/
theorem xhrAttempt_request_shape (cfg : SendConfig) (payload : String) :
    (xhrAttempt cfg payload).openMethod = cfg.method.getD "POST" ∧
    (xhrAttempt cfg payload).openUrl = cfg.endpoint ∧
    (xhrAttempt cfg payload).withCredentials = true ∧
    ("Content-type", "application/json") ∈ (xhrAttempt cfg payload).headers ∧
    (xhrAttempt cfg payload).body = payload ∧
    (xhrAttempt cfg payload).sendCalls = 1 :=
  ⟨rfl, rfl, rfl, List.mem_singleton.mpr rfl, rfl, rfl⟩

/-- Modelled from the spec: the completion of one XHR attempt — the load
event carrying its HTTP status, or the network-level error event. -/
inductive XHRResult where
  | loadEvent (status : Nat)
  | errorEvent
deriving DecidableEq, Repr

/-- Modelled from the spec: success policy of an XHR attempt. The §8
scenario requires a forced 500 response to stamp `queueTime` and keep the
record, and §9 resolves the same point explicitly: any non-2xx response is
a retryable failure, a network error is a failure, a 2xx load event is a
success. -/
def attemptSucceeded : XHRResult → Bool
  | .loadEvent status => if 200 ≤ status ∧ status < 300 then true else false
  | .errorEvent => false

/-- A JS-truthiness check for the optional queue timestamp: an absent
timestamp (`undefined`) and the number `0` are falsy. -/
def truthyTime : Option Nat → Bool
  | none => false
  | some n => n != 0

/-- Modelled from the spec: §2 dispatcher outcome handling for one record —
on success it is removed from the Store, on failure `markFailed` stamps
the first-failure timestamp and the record stays pending. -/
def handleOutcome (q : List TrackRequest) (r : TrackRequest) (res : XHRResult)
    (now : Nat) : List TrackRequest :=
  if attemptSucceeded res then removeRequest q r.id else markFailed q r.id now

/-- Claim C4: adding a pending record and running the dispatcher against an
XHR transport that answers HTTP 500 leaves the record in the Store with a
truthy `queueTime` — a 500 response is a retryable delivery failure, not a
success. -/
theorem xhr500_marks_failure (r : TrackRequest) (now : Nat)
    (h1 : r.queueTime = none) (h2 : 0 < now) :
    lastRequest (handleOutcome (addRequest [] r) r (.loadEvent 500) now) =
        some { r with queueTime := some now } ∧
    truthyTime ({ r with queueTime := some now } : TrackRequest).queueTime = true ∧
    (handleOutcome (addRequest [] r) r (.loadEvent 500) now).length = 1 := by
  have hq : addRequest [] r = [r] := rfl
  have hfail : attemptSucceeded (.loadEvent 500) = false := by decide
  refine ⟨?_, ?_, ?_⟩
  · simp [handleOutcome, hfail, hq, markFailed, h1, lastRequest]
  · simp only [truthyTime]
    simpa using Nat.pos_iff_ne_zero.mp h2
  · simp [handleOutcome, hfail, hq, markFailed]

/-- Witness for `xhr500_marks_failure` at a concrete input: the pending
record `r1`, a 500 response at time 5. -/
theorem xhr500_marks_failure_witness :
    lastRequest (handleOutcome
        (addRequest [] { id := "r1", payload := "p", queueTime := none, async := true })
        { id := "r1", payload := "p", queueTime := none, async := true }
        (.loadEvent 500) 5) =
      some { id := "r1", payload := "p", queueTime := some 5, async := true } ∧
    truthyTime ({ id := "r1", payload := "p", queueTime := some 5, async := true } : TrackRequest).queueTime = true ∧
    (handleOutcome
        (addRequest [] { id := "r1", payload := "p", queueTime := none, async := true })
        { id := "r1", payload := "p", queueTime := none, async := true }
        (.loadEvent 500) 5).length = 1 :=
  xhr500_marks_failure
    { id := "r1", payload := "p", queueTime := none, async := true } 5 rfl (by decide)

end OTracking
